import Mathlib

/-!
# Verification of the campus resource borrow/return manager

A shallow embedding of `src/system_manager.py` (the `SystemManager` core) and
proofs checking the specification's claims against it.

Modelling decisions, stated once:

* Python dict records become Lean structures with the fields the code reads and
  writes (the code always creates records with all keys present).
* The three in-memory collections plus the configured `due_days` form a `State`
  value; every operation is a function `State → ... → State × Except Err α`,
  threading the (possibly mutated) state explicitly so that "state unchanged on
  error" is a provable fact rather than an artefact of the encoding.
* Persistence (`file_manager.save_*`) does not change the in-memory collections,
  so the embedding omits the save calls.
* `today_iso()` (the ambient current date) is passed as an explicit `today`
  argument to the operations that default a date to it.
* `datetime.strptime(s, "%Y-%m-%d")` is modelled after CPython's actual
  behaviour: the year must be exactly four digits, while month and day may be
  one or two digits (CPython compiles `%m` to the regex `1[0-2]|0[1-9]|[1-9]`
  and `%d` to `3[01]|[12]\d|0[1-9]|[1-9]`), followed by range checks performed
  by the `date` constructor.  Dates in the model are unbounded above (no year
  9999 overflow), and `timedelta` addition of a non-negative day count is
  modelled by iterating the successor day.
* Python `str.strip` becomes `pyStrip` (drop whitespace from both ends),
  defined on the character list so that its properties are provable.
* Python `int(value)` conversion for the quantity arguments is modelled by an
  `Option Int` argument: `none` stands for a value that is not
  integer-convertible.
* Raised `ValidationError` / `NotFoundError` / `ConflictError` become the
  `Err` values of an `Except`.
-/

namespace CampusBorrow

/-! ## Errors -/

/-- The three predictable error classes of `system_manager.py`. -/
inductive Err where
  | validation
  | notFound
  | conflict
deriving Repr, DecidableEq

/-! ## Strings: Python `str.strip` -/

/-- Drop leading and trailing whitespace from a character list
(embedding of Python `str.strip()`). -/
def stripChars (l : List Char) : List Char :=
  ((l.dropWhile Char.isWhitespace).reverse.dropWhile Char.isWhitespace).reverse

/-- Python `str.strip()` on strings. -/
def pyStrip (s : String) : String :=
  String.mk (stripChars s.data)

/-- Embedding of `require_nonempty` (`system_manager.py` lines 60-64): error if
the stripped value is empty, otherwise return the stripped value. -/
def require_nonempty (value : String) : Except Err String :=
  if pyStrip value = "" then .error .validation else .ok (pyStrip value)

/-- Embedding of `require_int_ge_0` (lines 67-76): `none` models a value that
Python `int()` cannot convert. -/
def require_int_ge_0 (value : Option Int) : Except Err Int :=
  match value with
  | none => .error .validation
  | some iv => if iv < 0 then .error .validation else .ok iv

/-! ## Dates -/

/-- Gregorian leap year test, as Python's `calendar`/`datetime` define it. -/
def isLeap (y : Nat) : Bool :=
  y % 4 == 0 && (y % 100 != 0 || y % 400 == 0)

/-- Number of days in month `m` of year `y`. -/
def daysInMonth (y m : Nat) : Nat :=
  if m = 2 then (if isLeap y then 29 else 28)
  else if m = 4 ∨ m = 6 ∨ m = 9 ∨ m = 11 then 30
  else 31

/-- A calendar date, as Python's `datetime.date` (year unbounded above in the
model; the parser only produces four-digit years). -/
structure Date where
  year : Nat
  month : Nat
  day : Nat
deriving Repr, DecidableEq

/-- Strict ordering of dates, as Python compares `date` values. -/
def Date.ltb (a b : Date) : Bool :=
  a.year < b.year ||
    (a.year == b.year &&
      (a.month < b.month || (a.month == b.month && a.day < b.day)))

/-- The next calendar day (`date + timedelta(days=1)`). -/
def Date.next (d : Date) : Date :=
  if d.day < daysInMonth d.year d.month then ⟨d.year, d.month, d.day + 1⟩
  else if d.month < 12 then ⟨d.year, d.month + 1, 1⟩
  else ⟨d.year + 1, 1, 1⟩

/-- `date + timedelta(days=n)` for a non-negative day count. -/
def addDays (d : Date) : Nat → Date
  | 0 => d
  | n + 1 => (addDays d n).next

/-- Numeric value of an ASCII digit. -/
def charVal (c : Char) : Nat := c.toNat - '0'.toNat

/-- Value of a most-significant-first digit string. -/
def digitsVal (l : List Char) : Nat :=
  l.foldl (fun a c => 10 * a + charVal c) 0

/-- Split a character list into its maximal leading run of ASCII digits and
the rest. -/
def spanDigits : List Char → List Char × List Char
  | [] => ([], [])
  | c :: cs =>
    if c.isDigit then
      let p := spanDigits cs
      (c :: p.1, p.2)
    else ([], c :: cs)

/-- Embedding of `parse_iso` (lines 46-51), i.e. of
`datetime.strptime(d, "%Y-%m-%d").date()` wrapped to an error value:
exactly four year digits, one or two month digits, one or two day digits,
separated by hyphens with nothing left over, and the values must form a real
calendar date with year at least 1.  Returns `none` where the code raises
`ValidationError`. -/
def parse_iso (s : String) : Option Date :=
  let p1 := spanDigits s.data
  match p1.2 with
  | [] => none
  | c1 :: r2 =>
    if c1 = '-' then
      let p2 := spanDigits r2
      match p2.2 with
      | [] => none
      | c2 :: r4 =>
        if c2 = '-' then
          let p3 := spanDigits r4
          match p3.2 with
          | [] =>
            if p1.1.length = 4 ∧ 1 ≤ p2.1.length ∧ p2.1.length ≤ 2 ∧
                1 ≤ p3.1.length ∧ p3.1.length ≤ 2 then
              let y := digitsVal p1.1
              let m := digitsVal p2.1
              let d := digitsVal p3.1
              if 1 ≤ y ∧ 1 ≤ m ∧ m ≤ 12 ∧ 1 ≤ d ∧ d ≤ daysInMonth y m then
                some ⟨y, m, d⟩
              else none
            else none
          | _ => none
        else none
    else none

/-- Fuel-driven digit rendering: prepend the decimal digits of `n` (most
significant first) to `acc`; `fuel ≥ n` suffices for full rendering. -/
def natReprAux : Nat → Nat → List Char → List Char
  | 0, _, acc => acc
  | fuel + 1, n, acc =>
    if n = 0 then acc else natReprAux fuel (n / 10) (Nat.digitChar (n % 10) :: acc)

/-- Decimal digit characters of `n`, most significant first, as Python
`str(n)` renders a non-negative integer. -/
def natRepr (n : Nat) : List Char :=
  if n = 0 then ['0'] else natReprAux n n []

/-- Left-pad a character list with zeros to width `n`
(Python `str.zfill(n)` on a digit string). -/
def padLeft (n : Nat) (l : List Char) : List Char :=
  List.replicate (n - l.length) '0' ++ l

/-- `date.isoformat()`: `YYYY-MM-DD` with zero padding. -/
def dateToIso (d : Date) : String :=
  String.mk (padLeft 4 (natRepr d.year) ++ '-' ::
    (padLeft 2 (natRepr d.month) ++ '-' :: padLeft 2 (natRepr d.day)))

/-- Embedding of `iso_plus_days` (lines 54-57). -/
def iso_plus_days (start_iso : String) (days : Nat) : Option String :=
  (parse_iso start_iso).map (fun d => dateToIso (addDays d days))

/-! ## Records and state -/

/-- A student record (`{"student_id", "name", "email"}`). -/
structure Student where
  student_id : String
  name : String
  email : String
deriving Repr, DecidableEq

/-- A resource record (`{"resource_id", "name", "type", "quantity"}`);
the `type` key is named `rtype` here. -/
structure Resource where
  resource_id : String
  name : String
  rtype : String
  quantity : Int
deriving Repr, DecidableEq

/-- A borrow/return transaction record. -/
structure Transaction where
  transaction_id : String
  student_id : String
  resource_id : String
  borrow_date : String
  due_date : String
  return_date : Option String
  status : String
deriving Repr, DecidableEq

/-- The manager's in-memory state: the three collections plus the configured
due-day offset. -/
structure State where
  due_days : Nat
  students : List Student
  resources : List Resource
  transactions : List Transaction
deriving Repr, DecidableEq

/-! ## Find helpers (lines 157-194) -/

/-- The scan loop of `find_student`: first student whose id equals `sid`. -/
def findStudentRec (students : List Student) (sid : String) : Option Student :=
  students.find? (fun s => s.student_id == sid)

/-- The scan loop of `find_resource`. -/
def findResourceRec (resources : List Resource) (rid : String) : Option Resource :=
  resources.find? (fun r => r.resource_id == rid)

/-- The scan loop of `find_transaction`. -/
def findTransactionRec (transactions : List Transaction) (tid : String) :
    Option Transaction :=
  transactions.find? (fun t => t.transaction_id == tid)

/-- `find_student` (lines 157-162): validates the key non-empty, then scans. -/
def find_student (st : State) (student_id : String) : Except Err (Option Student) :=
  match require_nonempty student_id with
  | .error e => .error e
  | .ok sid => .ok (findStudentRec st.students sid)

/-- `find_resource` (lines 164-169). -/
def find_resource (st : State) (resource_id : String) : Except Err (Option Resource) :=
  match require_nonempty resource_id with
  | .error e => .error e
  | .ok rid => .ok (findResourceRec st.resources rid)

/-- `find_transaction` (lines 171-176). -/
def find_transaction (st : State) (transaction_id : String) :
    Except Err (Option Transaction) :=
  match require_nonempty transaction_id with
  | .error e => .error e
  | .ok tid => .ok (findTransactionRec st.transactions tid)

/-- `active_transactions_for_resource` (lines 178-183): the "borrowed"
transactions against a resource id (the argument used as given, not stripped). -/
def active_transactions_for_resource (st : State) (resource_id : String) :
    List Transaction :=
  st.transactions.filter
    (fun t => t.resource_id == resource_id && t.status == "borrowed")

/-- `active_transactions_for_student_resource` (lines 185-194). -/
def active_transactions_for_student_resource (st : State)
    (student_id resource_id : String) : List Transaction :=
  st.transactions.filter
    (fun t => t.student_id == student_id && t.resource_id == resource_id &&
      t.status == "borrowed")

/-! ## Transaction id generation (lines 199-211) -/

/-- The numeric suffix of a transaction id of the form `"T" + digits`
(`tid.startswith("T") and tid[1:].isdigit()`, then `int(tid[1:])`);
`none` for any other string. -/
def parseTid (tid : String) : Option Nat :=
  match tid.data with
  | [] => none
  | c :: rest =>
    if c = 'T' ∧ rest ≠ [] ∧ rest.all Char.isDigit = true then
      some (digitsVal rest)
    else none

/-- `next_transaction_id` (lines 199-211): collect the numeric suffixes of
well-formed ids, take max + 1 (or 1 when there are none), zero-pad to three
digits behind a `T`. -/
def next_transaction_id (transactions : List Transaction) : String :=
  let nums := (transactions.map (fun t => t.transaction_id)).filterMap parseTid
  let new_num := if nums.isEmpty then 1 else nums.foldl Nat.max 0 + 1
  String.mk ('T' :: padLeft 3 (natRepr new_num))

/-! ## In-place record updates

`borrow_resource`, `return_resource` and `update_resource_quantity` mutate the
record object returned by a find helper; since the find helpers return the
first record matching the id, the mutation hits the first match in the list. -/

/-- Replace the first resource whose id equals `rid` by `f` of it. -/
def updateFirstResource (l : List Resource) (rid : String) (f : Resource → Resource) :
    List Resource :=
  match l with
  | [] => []
  | r :: rs =>
    if r.resource_id == rid then f r :: rs else r :: updateFirstResource rs rid f

/-- Replace the first transaction whose id equals `tid` by `f` of it. -/
def updateFirstTransaction (l : List Transaction) (tid : String)
    (f : Transaction → Transaction) : List Transaction :=
  match l with
  | [] => []
  | t :: ts =>
    if t.transaction_id == tid then f t :: ts else t :: updateFirstTransaction ts tid f

/-! ## Mutating operations -/

/-- `add_student` (lines 216-225). -/
def add_student (st : State) (student_id name email : String) :
    State × Except Err Unit :=
  match require_nonempty student_id with
  | .error e => (st, .error e)
  | .ok sid =>
  match require_nonempty name with
  | .error e => (st, .error e)
  | .ok nm =>
  match require_nonempty email with
  | .error e => (st, .error e)
  | .ok em =>
  match find_student st sid with
  | .error e => (st, .error e)
  | .ok (some _) => (st, .error .conflict)
  | .ok none =>
    ({ st with students := st.students ++ [⟨sid, nm, em⟩] }, .ok ())

/-- `add_resource` (lines 230-240). -/
def add_resource (st : State) (resource_id name rtype : String)
    (quantity : Option Int) : State × Except Err Unit :=
  match require_nonempty resource_id with
  | .error e => (st, .error e)
  | .ok rid =>
  match require_nonempty name with
  | .error e => (st, .error e)
  | .ok nm =>
  match require_nonempty rtype with
  | .error e => (st, .error e)
  | .ok ty =>
  match require_int_ge_0 quantity with
  | .error e => (st, .error e)
  | .ok qty =>
  match find_resource st rid with
  | .error e => (st, .error e)
  | .ok (some _) => (st, .error .conflict)
  | .ok none =>
    ({ st with resources := st.resources ++ [⟨rid, nm, ty, qty⟩] }, .ok ())

/-- `update_resource_quantity` (lines 242-249): find first (NotFound takes
precedence), then validate the quantity, then overwrite in place.  The record
mutated is the one `find_resource` returned, i.e. the first match on the
stripped id. -/
def update_resource_quantity (st : State) (resource_id : String)
    (new_quantity : Option Int) : State × Except Err Unit :=
  match find_resource st resource_id with
  | .error e => (st, .error e)
  | .ok none => (st, .error .notFound)
  | .ok (some _) =>
    match require_int_ge_0 new_quantity with
    | .error e => (st, .error e)
    | .ok qty =>
      ({ st with resources :=
          (updateFirstResource st.resources (pyStrip resource_id)
            (fun r => { r with quantity := qty })) }, .ok ())

/-- `remove_resource` (lines 251-266).  Note two details taken from the code:
the active-transaction check and the rebuild filter both use the argument as
given (unstripped), while `find_resource` strips it internally; and the rebuild
keeps every record whose id differs, so all records carrying the id are
removed. -/
def remove_resource (st : State) (resource_id : String) : State × Except Err Unit :=
  match find_resource st resource_id with
  | .error e => (st, .error e)
  | .ok none => (st, .error .notFound)
  | .ok (some _) =>
    if (active_transactions_for_resource st resource_id).isEmpty = false then
      (st, .error .conflict)
    else
      ({ st with resources :=
          (st.resources.filter (fun x => x.resource_id != resource_id)) }, .ok ())

/-- `list_resources` (lines 268-272): all resources, in stored order (the
per-record `dict(r)` copies are value-identical; object identity is treated in
the aliasing model below). -/
def list_resources (st : State) : List Resource :=
  st.resources

/-- `list_available_resources` (lines 274-279): those with quantity > 0. -/
def list_available_resources (st : State) : List Resource :=
  st.resources.filter (fun r => r.quantity > 0)

/-- Lines 305-308 and 349-352: default an omitted date argument to today,
strip a given one. -/
def defaultDate (today : String) : Option String → String
  | none => today
  | some b => pyStrip b

/-- The new transaction record built by `borrow_resource` (lines 315-323),
given the parsed borrow date `bd`. -/
def borrowTx (st : State) (sid rid bdate : String) (bd : Date) : Transaction :=
  { transaction_id := next_transaction_id st.transactions, student_id := sid,
    resource_id := rid, borrow_date := bdate,
    due_date := dateToIso (addDays bd st.due_days), return_date := none,
    status := "borrowed" }

/-- `borrow_resource` (lines 284-332).  `today` stands for `today_iso()`. -/
def borrow_resource (st : State) (today : String) (student_id resource_id : String)
    (borrow_date : Option String) : State × Except Err Transaction :=
  match require_nonempty student_id with
  | .error e => (st, .error e)
  | .ok sid =>
  match require_nonempty resource_id with
  | .error e => (st, .error e)
  | .ok rid =>
  match find_student st sid with
  | .error e => (st, .error e)
  | .ok none => (st, .error .notFound)
  | .ok (some _) =>
  match find_resource st rid with
  | .error e => (st, .error e)
  | .ok none => (st, .error .notFound)
  | .ok (some r) =>
    if r.quantity ≤ 0 then (st, .error .conflict)
    else if (active_transactions_for_student_resource st sid rid).isEmpty = false then
      (st, .error .conflict)
    else
      match parse_iso (defaultDate today borrow_date) with
      | none => (st, .error .validation)
      | some bd =>
        ({ st with
            resources := (updateFirstResource st.resources rid
              (fun x => { x with quantity := x.quantity - 1 })),
            transactions := st.transactions ++
              [borrowTx st sid rid (defaultDate today borrow_date) bd] },
         .ok (borrowTx st sid rid (defaultDate today borrow_date) bd))

/-- `return_resource` (lines 334-364).  The transaction mutated is the first
match on the stripped transaction id; the resource incremented is the first
match on the stripped `tx.resource_id`. -/
def return_resource (st : State) (today : String) (transaction_id : String)
    (return_date : Option String) : State × Except Err Transaction :=
  match require_nonempty transaction_id with
  | .error e => (st, .error e)
  | .ok tid =>
  match find_transaction st tid with
  | .error e => (st, .error e)
  | .ok none => (st, .error .notFound)
  | .ok (some tx) =>
    if tx.status ≠ "borrowed" then (st, .error .conflict)
    else
      match find_resource st tx.resource_id with
      | .error e => (st, .error e)
      | .ok none => (st, .error .notFound)
      | .ok (some _) =>
        match parse_iso (defaultDate today return_date) with
        | none => (st, .error .validation)
        | some _ =>
          ({ st with
              transactions := (updateFirstTransaction st.transactions tid
                (fun t => { t with
                  return_date := some (defaultDate today return_date),
                  status := "returned" })),
              resources := (updateFirstResource st.resources (pyStrip tx.resource_id)
                (fun r => { r with quantity := r.quantity + 1 })) },
           .ok { tx with
             return_date := some (defaultDate today return_date),
             status := "returned" })

/-- `return_resource_by_student_resource` (lines 366-377). -/
def return_resource_by_student_resource (st : State) (today : String)
    (student_id resource_id : String) (return_date : Option String) :
    State × Except Err Transaction :=
  match require_nonempty student_id with
  | .error e => (st, .error e)
  | .ok sid =>
  match require_nonempty resource_id with
  | .error e => (st, .error e)
  | .ok rid =>
  match active_transactions_for_student_resource st sid rid with
  | [] => (st, .error .notFound)
  | [t] => return_resource st today t.transaction_id return_date
  | _ => (st, .error .conflict)

/-! ## Transactions / reports -/

/-- `list_transactions` (lines 382-391). -/
def list_transactions (st : State) (student_id : Option String) :
    Except Err (List Transaction) :=
  match student_id with
  | none => .ok st.transactions
  | some sid0 =>
    match require_nonempty sid0 with
    | .error e => .error e
    | .ok sid => .ok (st.transactions.filter (fun t => t.student_id == sid))

/-- `is_overdue` (lines 393-399): false for a non-"borrowed" status before any
date is parsed; otherwise parse the due date, then the reference date, and
compare strictly. -/
def is_overdue (tx : Transaction) (current_date : String) : Except Err Bool :=
  if tx.status ≠ "borrowed" then .ok false
  else
    match parse_iso tx.due_date with
    | none => .error .validation
    | some due =>
      match parse_iso current_date with
      | none => .error .validation
      | some cur => .ok (Date.ltb due cur)

/-- The collection loop of `list_overdue`: keep the transactions for which
`is_overdue` is true, aborting on the first date error. -/
def listOverdueGo (txs : List Transaction) (cdate : String) :
    Except Err (List Transaction) :=
  match txs with
  | [] => .ok []
  | t :: ts =>
    match is_overdue t cdate with
    | .error e => .error e
    | .ok b =>
      match listOverdueGo ts cdate with
      | .error e => .error e
      | .ok rest => .ok (if b then t :: rest else rest)

/-- `list_overdue` (lines 401-413). -/
def list_overdue (st : State) (today : String) (current_date : Option String) :
    Except Err (List Transaction) :=
  match parse_iso (defaultDate today current_date) with
  | none => .error .validation
  | some _ => listOverdueGo st.transactions (defaultDate today current_date)

/-! ## Lemmas about digit scanning and rendering -/

theorem spanDigits_fst_append_snd (l : List Char) :
    (spanDigits l).1 ++ (spanDigits l).2 = l := by
  induction l with
  | nil => rfl
  | cons c cs ih =>
    by_cases hc : c.isDigit
    · simp [spanDigits, hc, ih]
    · simp [spanDigits, hc]

theorem spanDigits_fst_all (l : List Char) :
    (spanDigits l).1.all Char.isDigit = true := by
  induction l with
  | nil => rfl
  | cons c cs ih =>
    by_cases hc : c.isDigit
    · simp [spanDigits, hc, ih]
    · simp [spanDigits, hc]

theorem spanDigits_snd_head (l : List Char) (c : Char) (cs : List Char)
    (h : (spanDigits l).2 = c :: cs) : c.isDigit = false := by
  induction l with
  | nil => simp [spanDigits] at h
  | cons x xs ih =>
    by_cases hx : x.isDigit
    · simp only [spanDigits, if_pos hx] at h
      exact ih h
    · simp only [spanDigits, if_neg hx] at h
      cases h
      simpa using hx

theorem spanDigits_of_append (a : List Char) (c : Char) (b : List Char)
    (ha : a.all Char.isDigit = true) (hc : c.isDigit = false) :
    spanDigits (a ++ c :: b) = (a, c :: b) := by
  induction a with
  | nil => simp [spanDigits, hc]
  | cons x xs ih =>
    simp only [List.all_cons, Bool.and_eq_true] at ha
    simp [spanDigits, ha.1, ih ha.2]

theorem spanDigits_of_all (a : List Char) (ha : a.all Char.isDigit = true) :
    spanDigits a = (a, []) := by
  induction a with
  | nil => rfl
  | cons x xs ih =>
    simp only [List.all_cons, Bool.and_eq_true] at ha
    simp [spanDigits, ha.1, ih ha.2]

theorem digitsVal_append (a b : List Char) :
    digitsVal (a ++ b) = b.foldl (fun x c => 10 * x + charVal c) (digitsVal a) := by
  simp [digitsVal, List.foldl_append]

theorem digitsVal_replicate_zero (k : Nat) (l : List Char) :
    digitsVal (List.replicate k '0' ++ l) = digitsVal l := by
  rw [digitsVal_append]
  have h : digitsVal (List.replicate k '0') = 0 := by
    induction k with
    | zero => rfl
    | succ k ih =>
      rw [List.replicate_succ]
      have : digitsVal ('0' :: List.replicate k '0') =
          (List.replicate k '0').foldl (fun x c => 10 * x + charVal c) 0 := by
        simp [digitsVal, charVal]
      rw [this]
      exact ih
  rw [h]
  rfl

theorem charVal_digitChar (d : Nat) (h : d < 10) :
    charVal (Nat.digitChar d) = d := by
  interval_cases d <;> decide

theorem isDigit_digitChar (d : Nat) (h : d < 10) :
    (Nat.digitChar d).isDigit = true := by
  interval_cases d <;> decide

theorem natReprAux_eq_digits (fuel : Nat) :
    ∀ n acc, n ≤ fuel →
      natReprAux fuel n acc = ((Nat.digits 10 n).map Nat.digitChar).reverse ++ acc := by
  induction fuel with
  | zero =>
    intro n acc h
    interval_cases n
    simp [natReprAux]
  | succ fuel ih =>
    intro n acc h
    by_cases hn : n = 0
    · subst hn; simp [natReprAux]
    · have hdiv : n / 10 ≤ fuel := by
        have h1 : n / 10 < n := Nat.div_lt_self (Nat.pos_of_ne_zero hn) (by norm_num)
        omega
      rw [natReprAux, if_neg hn, ih (n / 10) _ hdiv,
        Nat.digits_def' (by norm_num : (1:ℕ) < 10) (Nat.pos_of_ne_zero hn)]
      simp

theorem natRepr_eq_digits (n : Nat) (h : n ≠ 0) :
    natRepr n = ((Nat.digits 10 n).map Nat.digitChar).reverse := by
  simp [natRepr, h, natReprAux_eq_digits n n [] le_rfl]

theorem digitsVal_rev_map_digitChar (D : List Nat) (hD : ∀ d ∈ D, d < 10) :
    digitsVal ((D.map Nat.digitChar).reverse) = Nat.ofDigits 10 D := by
  induction D with
  | nil => rfl
  | cons d L ih =>
    have hd : d < 10 := hD d (by simp)
    have hL : ∀ x ∈ L, x < 10 := fun x hx => hD x (by simp [hx])
    simp only [List.map_cons, List.reverse_cons]
    rw [digitsVal_append, ih hL, Nat.ofDigits_cons]
    simp [charVal_digitChar d hd]
    ring

theorem digitsVal_natRepr (n : Nat) : digitsVal (natRepr n) = n := by
  by_cases h : n = 0
  · subst h; decide
  · rw [natRepr_eq_digits n h,
      digitsVal_rev_map_digitChar _ (fun d hd => Nat.digits_lt_base (by norm_num) hd),
      Nat.ofDigits_digits]

theorem natRepr_all_digits (n : Nat) : (natRepr n).all Char.isDigit = true := by
  by_cases h : n = 0
  · subst h; decide
  · rw [natRepr_eq_digits n h, List.all_reverse, List.all_eq_true]
    intro c hc
    simp only [List.mem_map] at hc
    obtain ⟨d, hd, rfl⟩ := hc
    exact isDigit_digitChar d (Nat.digits_lt_base (by norm_num) hd)

theorem natRepr_ne_nil (n : Nat) : natRepr n ≠ [] := by
  by_cases h : n = 0
  · subst h; decide
  · rw [natRepr_eq_digits n h]
    simp [Nat.digits_ne_nil_iff_ne_zero, h]

theorem padLeft_all_digits (k : Nat) (l : List Char)
    (hl : l.all Char.isDigit = true) : (padLeft k l).all Char.isDigit = true := by
  simp only [padLeft, List.all_append, hl, Bool.and_true]
  rw [List.all_eq_true]
  intro c hc
  rw [List.eq_of_mem_replicate hc]
  decide

theorem padLeft_ne_nil (k : Nat) (l : List Char) (hl : l ≠ []) :
    padLeft k l ≠ [] := by
  simp [padLeft, hl]

theorem digitsVal_padLeft (k : Nat) (l : List Char) :
    digitsVal (padLeft k l) = digitsVal l :=
  digitsVal_replicate_zero _ l

/-! ## Claim C9: the date parser's accepted language -/

/-- Modelled from claim C9's words: a string matching the format `YYYY-MM-DD`
exactly — four-digit year, two-digit zero-padded month and two-digit
zero-padded day, separated by hyphens. -/
def matchesSpecISO (s : String) : Bool :=
  match s.data with
  | [y1, y2, y3, y4, s1, m1, m2, s2, d1, d2] =>
    (s1 == '-') && (s2 == '-') && [y1, y2, y3, y4, m1, m2, d1, d2].all Char.isDigit
  | _ => false

/-- The language `parse_iso` actually accepts (what CPython
`strptime(s, "%Y-%m-%d")` plus the `date` constructor accept): a four-digit
year run, a one-or-two-digit month run and a one-or-two-digit day run
separated by hyphens, whose values form a real calendar date with year ≥ 1. -/
def LenientISO (s : String) : Prop :=
  ∃ ys ms ds : List Char,
    s.data = ys ++ '-' :: (ms ++ '-' :: ds) ∧
    ys.all Char.isDigit = true ∧ ms.all Char.isDigit = true ∧
    ds.all Char.isDigit = true ∧
    (ys.length = 4 ∧ 1 ≤ ms.length ∧ ms.length ≤ 2 ∧
      1 ≤ ds.length ∧ ds.length ≤ 2) ∧
    (1 ≤ digitsVal ys ∧ 1 ≤ digitsVal ms ∧ digitsVal ms ≤ 12 ∧
      1 ≤ digitsVal ds ∧ digitsVal ds ≤ daysInMonth (digitsVal ys) (digitsVal ms))

/-- Claim C9 (amended): `parse_iso` succeeds — i.e. raises no
`ValidationError` — exactly on the strings of `LenientISO`: four year digits
and one-or-two-digit month and day fields in calendar range.  Zero padding of
month and day is NOT required. -/
theorem parse_iso_accepts_lenient_iso (s : String) :
    (∃ dt, parse_iso s = some dt) ↔ LenientISO s := by
  constructor
  · rintro ⟨dt, hd⟩
    simp only [parse_iso] at hd
    split at hd
    · exact absurd hd (by simp)
    next c1 r2 h1 =>
      split at hd
      next hc1 =>
        split at hd
        · exact absurd hd (by simp)
        next c2 r4 h2 =>
          split at hd
          next hc2 =>
            split at hd
            next h3 =>
              split at hd
              next hlen =>
                split at hd
                next hval =>
                  subst hc1
                  subst hc2
                  refine ⟨(spanDigits s.data).1, (spanDigits r2).1, (spanDigits r4).1,
                    ?_, spanDigits_fst_all _, spanDigits_fst_all _,
                    spanDigits_fst_all _, hlen, hval⟩
                  have e1 := spanDigits_fst_append_snd s.data
                  have e2 := spanDigits_fst_append_snd r2
                  have e3 := spanDigits_fst_append_snd r4
                  rw [h1] at e1
                  rw [h2] at e2
                  rw [h3, List.append_nil] at e3
                  rw [e3, e2, e1]
                · exact absurd hd (by simp)
              · exact absurd hd (by simp)
            · exact absurd hd (by simp)
          next hc2 => exact absurd hd (by simp)
      next hc1 => exact absurd hd (by simp)
  · rintro ⟨ys, ms, ds, hdata, hys, hms, hds, hlen, hval⟩
    refine ⟨⟨digitsVal ys, digitsVal ms, digitsVal ds⟩, ?_⟩
    simp only [parse_iso, hdata,
      spanDigits_of_append ys '-' (ms ++ '-' :: ds) hys (by decide),
      spanDigits_of_append ms '-' ds hms (by decide),
      spanDigits_of_all ds hds]
    simp [hlen, hval]

/-- C9 counterexample: `"2024-1-5"` does not match `YYYY-MM-DD` exactly (the
month and day are not zero padded), yet the parser accepts it, because
CPython `strptime` allows one-digit month and day fields.  So "raises
ValidationError iff the string does not match YYYY-MM-DD exactly" is false on
the code. -/
theorem parse_iso_zero_padding_counterexample :
    matchesSpecISO "2024-1-5" = false ∧
      parse_iso "2024-1-5" = some ⟨2024, 1, 5⟩ := by decide

/-! ## Claim C4: transaction id allocation -/

/-- Modelled from the spec's words for C4: the maximum numeric suffix among
the transaction ids of the form "T" followed by digits, or `none` when no such
id exists. -/
def maxSuffix : List String → Option Nat
  | [] => none
  | id0 :: rest =>
    match parseTid id0 with
    | none => maxSuffix rest
    | some k =>
      match maxSuffix rest with
      | none => some k
      | some m => some (Nat.max k m)

/-- Modelled from the spec's words for C4: "T" followed by the
zero-padded-to-3-digits decimal of (1 + the maximum numeric suffix among
existing ids of the form "T" followed by digits), or "T001" when no such id
exists. -/
def specNextTransactionId (ids : List String) : String :=
  match maxSuffix ids with
  | none => "T001"
  | some m => String.mk ('T' :: padLeft 3 (natRepr (m + 1)))

theorem foldl_max_shift (l : List Nat) (a : Nat) :
    l.foldl Nat.max a = Nat.max a (l.foldl Nat.max 0) := by
  induction l generalizing a with
  | nil => simp
  | cons x xs ih =>
    simp only [List.foldl_cons]
    rw [ih (Nat.max a x), ih (Nat.max 0 x)]
    simp [Nat.max_assoc]

theorem le_foldl_max (l : List Nat) (x : Nat) (hx : x ∈ l) :
    x ≤ l.foldl Nat.max 0 := by
  induction l with
  | nil => cases hx
  | cons y ys ih =>
    simp only [List.foldl_cons]
    rw [foldl_max_shift]
    rcases List.mem_cons.mp hx with h | h
    · subst h
      exact le_trans (Nat.le_max_right 0 x) (Nat.le_max_left _ _)
    · exact le_trans (ih h) (Nat.le_max_right _ _)

theorem maxSuffix_eq_foldl (ids : List String) :
    maxSuffix ids = if (ids.filterMap parseTid).isEmpty then none
      else some ((ids.filterMap parseTid).foldl Nat.max 0) := by
  induction ids with
  | nil => rfl
  | cons id0 rest ih =>
    cases h : parseTid id0 with
    | none =>
      simp only [maxSuffix, h, ih, List.filterMap_cons_none h]
    | some k =>
      simp only [maxSuffix, h, ih, List.filterMap_cons_some h]
      have h0 : ∀ a : Nat, Nat.max 0 a = a := fun a => Nat.max_eq_right (Nat.zero_le a)
      by_cases hr : (rest.filterMap parseTid).isEmpty
      · have hnil : rest.filterMap parseTid = [] := by
          simpa [List.isEmpty_iff] using hr
        rw [if_pos hr, hnil]
        simp [h0]
      · have hcons : (k :: rest.filterMap parseTid).foldl Nat.max 0 =
            Nat.max k ((rest.filterMap parseTid).foldl Nat.max 0) := by
          rw [List.foldl_cons, foldl_max_shift _ (Nat.max 0 k), h0]
        rw [if_neg hr, if_neg (by simp), hcons]

theorem parseTid_mk_pad (n : Nat) :
    parseTid (String.mk ('T' :: padLeft 3 (natRepr n))) = some n := by
  have hne : padLeft 3 (natRepr n) ≠ [] := padLeft_ne_nil _ _ (natRepr_ne_nil n)
  have hall : (padLeft 3 (natRepr n)).all Char.isDigit = true :=
    padLeft_all_digits _ _ (natRepr_all_digits n)
  simp [parseTid, hne, hall, digitsVal_padLeft, digitsVal_natRepr]

theorem next_transaction_id_eq_pad (txs : List Transaction) :
    next_transaction_id txs = String.mk ('T' :: padLeft 3 (natRepr
      (((txs.map (fun t => t.transaction_id)).filterMap parseTid).foldl Nat.max 0
        + 1))) := by
  show String.mk ('T' :: padLeft 3 (natRepr
      (if ((txs.map (fun t => t.transaction_id)).filterMap parseTid).isEmpty
        then 1
        else ((txs.map (fun t => t.transaction_id)).filterMap parseTid).foldl
          Nat.max 0 + 1))) = _
  by_cases h : ((txs.map (fun t => t.transaction_id)).filterMap parseTid).isEmpty
  · have hnil : (txs.map (fun t => t.transaction_id)).filterMap parseTid = [] := by
      simpa [List.isEmpty_iff] using h
    rw [if_pos h, hnil]
    rfl
  · rw [if_neg h]

/-- The freshly generated transaction id never collides with an existing
transaction id. -/
theorem next_transaction_id_fresh (txs : List Transaction) :
    ∀ t ∈ txs, t.transaction_id ≠ next_transaction_id txs := by
  intro t ht heq
  have h1 : parseTid (next_transaction_id txs) =
      some (((txs.map (fun t => t.transaction_id)).filterMap parseTid).foldl
        Nat.max 0 + 1) := by
    rw [next_transaction_id_eq_pad]
    exact parseTid_mk_pad _
  have h2 : (((txs.map (fun t => t.transaction_id)).filterMap parseTid).foldl
      Nat.max 0 + 1) ∈ (txs.map (fun t => t.transaction_id)).filterMap parseTid :=
    List.mem_filterMap.mpr
      ⟨t.transaction_id, List.mem_map_of_mem _ ht, by rw [heq]; exact h1⟩
  have h3 := le_foldl_max _ _ h2
  omega

/-- Claim C4: `next_transaction_id` returns "T" followed by the zero-padded
3-digit decimal of (1 + the max numeric suffix among ids of the form
"T"+digits), or "T001" when none exists (the spec-side formulation
`specNextTransactionId`); it depends only on the existing transaction ids;
and it never equals any existing transaction id. -/
theorem next_transaction_id_contract (txs : List Transaction) :
    next_transaction_id txs =
        specNextTransactionId (txs.map (fun t => t.transaction_id)) ∧
    (∀ txs2 : List Transaction,
        txs.map (fun t => t.transaction_id) = txs2.map (fun t => t.transaction_id) →
        next_transaction_id txs = next_transaction_id txs2) ∧
    (∀ t ∈ txs, t.transaction_id ≠ next_transaction_id txs) := by
  refine ⟨?_, ?_, ?_⟩
  · rw [next_transaction_id_eq_pad]
    unfold specNextTransactionId
    rw [maxSuffix_eq_foldl]
    by_cases h : ((txs.map (fun t => t.transaction_id)).filterMap parseTid).isEmpty
    · have hnil : (txs.map (fun t => t.transaction_id)).filterMap parseTid = [] := by
        simpa [List.isEmpty_iff] using h
      rw [if_pos h, hnil]
      decide
    · rw [if_neg h]
  · intro txs2 hmap
    unfold next_transaction_id
    rw [hmap]
  · exact next_transaction_id_fresh txs

/-! ## Lemmas for the operation contracts -/

theorem require_nonempty_of_stripped (s : String) (hs : pyStrip s = s)
    (hne : s ≠ "") : require_nonempty s = .ok s := by
  unfold require_nonempty
  rw [hs, if_neg hne]

theorem find_student_of_stripped (st : State) (sid : String)
    (hs : pyStrip sid = sid) (hne : sid ≠ "") :
    find_student st sid = .ok (findStudentRec st.students sid) := by
  unfold find_student
  rw [require_nonempty_of_stripped sid hs hne]

theorem find_resource_of_stripped (st : State) (rid : String)
    (hs : pyStrip rid = rid) (hne : rid ≠ "") :
    find_resource st rid = .ok (findResourceRec st.resources rid) := by
  unfold find_resource
  rw [require_nonempty_of_stripped rid hs hne]

theorem find_transaction_of_stripped (st : State) (tid : String)
    (hs : pyStrip tid = tid) (hne : tid ≠ "") :
    find_transaction st tid = .ok (findTransactionRec st.transactions tid) := by
  unfold find_transaction
  rw [require_nonempty_of_stripped tid hs hne]

theorem find?_key_eq_some {α : Type} (key : α → String) (l : List α) (k : String)
    (r : α) (h : l.find? (fun x => key x == k) = some r) :
    key r = k ∧ ∃ pre post, l = pre ++ r :: post ∧ ∀ x ∈ pre, key x ≠ k := by
  induction l with
  | nil => cases h
  | cons a as ih =>
    by_cases ha : key a = k
    · rw [List.find?_cons_of_pos _ (by simp [ha])] at h
      cases h
      exact ⟨ha, [], as, rfl, by simp⟩
    · rw [List.find?_cons_of_neg _ (by simp [ha])] at h
      obtain ⟨hr, pre, post, hl, hpre⟩ := ih h
      refine ⟨hr, a :: pre, post, by rw [hl]; rfl, ?_⟩
      intro x hx
      rcases List.mem_cons.mp hx with rfl | hx
      · exact ha
      · exact hpre x hx

theorem find?_key_eq_none {α : Type} (key : α → String) (l : List α) (k : String)
    (h : l.find? (fun x => key x == k) = none) : ∀ x ∈ l, key x ≠ k := by
  intro x hx
  have := List.find?_eq_none.mp h x hx
  simpa using this

theorem updateFirstResource_append (pre : List Resource) (r : Resource)
    (post : List Resource) (rid : String) (f : Resource → Resource)
    (hpre : ∀ x ∈ pre, x.resource_id ≠ rid) (hr : r.resource_id = rid) :
    updateFirstResource (pre ++ r :: post) rid f = pre ++ f r :: post := by
  induction pre with
  | nil => simp [updateFirstResource, hr]
  | cons a as ih =>
    have ha : a.resource_id ≠ rid := hpre a (by simp)
    simp only [List.cons_append, updateFirstResource, List.append_eq]
    rw [if_neg (by simpa using ha), ih (fun x hx => hpre x (by simp [hx]))]

theorem updateFirstTransaction_append (pre : List Transaction) (t : Transaction)
    (post : List Transaction) (tid : String) (f : Transaction → Transaction)
    (hpre : ∀ x ∈ pre, x.transaction_id ≠ tid) (ht : t.transaction_id = tid) :
    updateFirstTransaction (pre ++ t :: post) tid f = pre ++ f t :: post := by
  induction pre with
  | nil => simp [updateFirstTransaction, ht]
  | cons a as ih =>
    have ha : a.transaction_id ≠ tid := hpre a (by simp)
    simp only [List.cons_append, updateFirstTransaction, List.append_eq]
    rw [if_neg (by simpa using ha), ih (fun x hx => hpre x (by simp [hx]))]

/-- A small concrete state used to exercise the contract theorems:
one student, two resources (one with stock, one at zero with an open
borrow), one open transaction. -/
def exSt : State :=
  { due_days := 3,
    students := [⟨"S1", "Alice", "alice@alustudent.com"⟩],
    resources := [⟨"R1", "Projector", "AV", 2⟩, ⟨"R2", "Laptop", "IT", 0⟩],
    transactions := [⟨"T001", "S1", "R2", "2024-01-01", "2024-01-04", none,
      "borrowed"⟩] }

/-! ## Claim C8: unconditional quantity override -/

/-- Claim C8: `update_resource_quantity` raises NotFoundError when the id is
absent; with the resource present it raises ValidationError when the new
quantity is not integer-convertible or negative; otherwise it overwrites that
resource's quantity — unconditionally, for every transaction list whatsoever,
with no check against outstanding borrows (the theorem quantifies over all
`st.transactions`) — leaving its other fields, all other resources, and the
student and transaction collections unchanged. -/
theorem update_resource_quantity_contract (st : State) (rid : String)
    (q : Option Int) (hs : pyStrip rid = rid) (hne : rid ≠ "") :
    (findResourceRec st.resources rid = none →
      update_resource_quantity st rid q = (st, .error .notFound)) ∧
    (∀ r, findResourceRec st.resources rid = some r → q = none →
      update_resource_quantity st rid q = (st, .error .validation)) ∧
    (∀ r n, findResourceRec st.resources rid = some r → q = some n → n < 0 →
      update_resource_quantity st rid q = (st, .error .validation)) ∧
    (∀ r n, findResourceRec st.resources rid = some r → q = some n → 0 ≤ n →
      ∃ pre post,
        st.resources = pre ++ r :: post ∧
        (∀ x ∈ pre, x.resource_id ≠ rid) ∧
        update_resource_quantity st rid q =
          ({ st with resources := pre ++ { r with quantity := n } :: post },
            .ok ())) := by
  have hfr := find_resource_of_stripped st rid hs hne
  refine ⟨?_, ?_, ?_, ?_⟩
  · intro h
    unfold update_resource_quantity
    rw [hfr, h]
  · intro r h hq
    unfold update_resource_quantity
    rw [hfr, h, hq]
    rfl
  · intro r n h hq hn
    have hq2 : require_int_ge_0 q = .error .validation := by
      rw [hq]
      show (if n < 0 then (.error .validation : Except Err Int) else .ok n) =
        .error .validation
      rw [if_pos hn]
    unfold update_resource_quantity
    rw [hfr, h, hq2]
  · intro r n h hq hn
    have h' : st.resources.find? (fun x => x.resource_id == rid) = some r := h
    obtain ⟨hid, pre, post, hl, hpre⟩ :=
      find?_key_eq_some (fun x => x.resource_id) st.resources rid r h'
    refine ⟨pre, post, hl, hpre, ?_⟩
    have hq2 : require_int_ge_0 q = .ok n := by
      rw [hq]
      show (if n < 0 then (.error .validation : Except Err Int) else .ok n) = .ok n
      rw [if_neg (by omega)]
    unfold update_resource_quantity
    rw [hfr, h, hq2]
    show ({ st with resources := (updateFirstResource st.resources (pyStrip rid)
        (fun r => { r with quantity := n })) }, (.ok () : Except Err Unit)) = _
    rw [hs, hl, updateFirstResource_append pre r post rid _ hpre hid]

/-- Witness for C8: on the concrete state `exSt`, setting R1's quantity to 5
succeeds and rewrites exactly that record (here with zero stock checks even
though R2 has an open borrow). -/
theorem update_resource_quantity_contract_witness :
    ∃ pre post,
      exSt.resources = pre ++ (⟨"R1", "Projector", "AV", 2⟩ : Resource) :: post ∧
      (∀ x ∈ pre, x.resource_id ≠ "R1") ∧
      update_resource_quantity exSt "R1" (some 5) =
        ({ exSt with resources :=
            (pre ++ { (⟨"R1", "Projector", "AV", 2⟩ : Resource) with
              quantity := 5 } :: post) },
          .ok ()) := by
  exact (update_resource_quantity_contract exSt "R1" (some 5) (by decide)
    (by decide)).2.2.2 ⟨"R1", "Projector", "AV", 2⟩ 5 rfl rfl (by decide)

/-! ## Claim C7: resource removal -/

/-- Claim C7: `remove_resource` raises NotFoundError when the id is absent;
raises ConflictError when some transaction on the resource has status
"borrowed" (and the resource stays listed, the state untouched); otherwise it
succeeds, after which no resource with that id is listed, every other resource
is still listed, nothing new is listed, and the students and transactions
(including returned ones referencing the resource) are unchanged. -/
theorem remove_resource_contract (st : State) (rid : String)
    (hs : pyStrip rid = rid) (hne : rid ≠ "") :
    (findResourceRec st.resources rid = none →
      remove_resource st rid = (st, .error .notFound)) ∧
    (∀ r, findResourceRec st.resources rid = some r →
      (∃ t ∈ st.transactions, t.resource_id = rid ∧ t.status = "borrowed") →
      remove_resource st rid = (st, .error .conflict) ∧ r ∈ list_resources st) ∧
    (∀ r, findResourceRec st.resources rid = some r →
      (∀ t ∈ st.transactions, ¬(t.resource_id = rid ∧ t.status = "borrowed")) →
      (remove_resource st rid).2 = .ok () ∧
      (remove_resource st rid).1.students = st.students ∧
      (remove_resource st rid).1.transactions = st.transactions ∧
      (remove_resource st rid).1.due_days = st.due_days ∧
      (∀ x ∈ list_resources (remove_resource st rid).1, x.resource_id ≠ rid) ∧
      (∀ x ∈ list_resources st, x.resource_id ≠ rid →
        x ∈ list_resources (remove_resource st rid).1) ∧
      (∀ x ∈ list_resources (remove_resource st rid).1, x ∈ list_resources st)) := by
  have hfr := find_resource_of_stripped st rid hs hne
  refine ⟨?_, ?_, ?_⟩
  · intro h
    unfold remove_resource
    rw [hfr, h]
  · intro r h hex
    have hne2 : (active_transactions_for_resource st rid).isEmpty = false := by
      obtain ⟨t, ht, h1, h2⟩ := hex
      have hmem : t ∈ active_transactions_for_resource st rid := by
        unfold active_transactions_for_resource
        exact List.mem_filter.mpr ⟨ht, by simp [h1, h2]⟩
      cases he : active_transactions_for_resource st rid with
      | nil => rw [he] at hmem; cases hmem
      | cons a as => rfl
    refine ⟨?_, List.mem_of_find?_eq_some h⟩
    unfold remove_resource
    rw [hfr, h]
    show (if (active_transactions_for_resource st rid).isEmpty = false
        then (st, (Except.error Err.conflict : Except Err Unit))
        else ({ st with resources :=
          (st.resources.filter (fun x => x.resource_id != rid)) }, Except.ok ())) = _
    rw [if_pos hne2]
  · intro r h hall
    have hemp : (active_transactions_for_resource st rid).isEmpty = true := by
      rw [List.isEmpty_iff]
      unfold active_transactions_for_resource
      rw [List.filter_eq_nil_iff]
      intro t ht
      have h2 := hall t ht
      simp only [Bool.and_eq_true, beq_iff_eq]
      tauto
    have hres : remove_resource st rid = ({ st with resources :=
        (st.resources.filter (fun x => x.resource_id != rid)) }, .ok ()) := by
      unfold remove_resource
      rw [hfr, h]
      show (if (active_transactions_for_resource st rid).isEmpty = false
          then (st, (Except.error Err.conflict : Except Err Unit))
          else ({ st with resources :=
            (st.resources.filter (fun x => x.resource_id != rid)) }, Except.ok ())) = _
      rw [if_neg (by simp [hemp])]
    rw [hres]
    refine ⟨rfl, rfl, rfl, rfl, ?_, ?_, ?_⟩
    · intro x hx
      have := (List.mem_filter.mp hx).2
      simpa using this
    · intro x hx hxid
      exact List.mem_filter.mpr ⟨hx, by simpa using hxid⟩
    · intro x hx
      exact List.mem_of_mem_filter hx

/-- Witness for C7: on `exSt`, removing R2 — which has an open borrowed
transaction — fails with ConflictError and R2 stays listed. -/
theorem remove_resource_contract_witness :
    remove_resource exSt "R2" = (exSt, .error .conflict) ∧
      (⟨"R2", "Laptop", "IT", 0⟩ : Resource) ∈ list_resources exSt :=
  (remove_resource_contract exSt "R2" (by decide) (by decide)).2.1
    ⟨"R2", "Laptop", "IT", 0⟩ rfl
    ⟨⟨"T001", "S1", "R2", "2024-01-01", "2024-01-04", none, "borrowed"⟩,
      by decide, rfl, rfl⟩

/-! ## Claim C10: mutations are atomic on error -/

theorem return_resource_error_frame (st : State) (today tid : String)
    (rd : Option String) (st2 : State) (e : Err)
    (h : return_resource st today tid rd = (st2, .error e)) : st2 = st := by
  unfold return_resource at h
  repeat' split at h
  all_goals
    first
      | (injection h with h1 h2; exact h1.symm)
      | (injection h with h1 h2; exact Except.noConfusion h2)

/-- Claim C10: whenever any of the seven mutating operations returns a
ValidationError, NotFoundError or ConflictError, the state it returns is
exactly the input state — every check precedes the first mutation. -/
theorem mutating_ops_atomic_on_error :
    (∀ st a b c st2 e, add_student st a b c = (st2, .error e) → st2 = st) ∧
    (∀ st a b c q st2 e, add_resource st a b c q = (st2, .error e) → st2 = st) ∧
    (∀ st a q st2 e, update_resource_quantity st a q = (st2, .error e) →
      st2 = st) ∧
    (∀ st a st2 e, remove_resource st a = (st2, .error e) → st2 = st) ∧
    (∀ st today a b bd st2 e, borrow_resource st today a b bd = (st2, .error e) →
      st2 = st) ∧
    (∀ st today a rd st2 e, return_resource st today a rd = (st2, .error e) →
      st2 = st) ∧
    (∀ st today a b rd st2 e,
      return_resource_by_student_resource st today a b rd = (st2, .error e) →
      st2 = st) := by
  refine ⟨?_, ?_, ?_, ?_, ?_, ?_, ?_⟩
  · intro st a b c st2 e h
    unfold add_student at h
    repeat' split at h
    all_goals
      first
        | (injection h with h1 h2; exact h1.symm)
        | (injection h with h1 h2; exact Except.noConfusion h2)
  · intro st a b c q st2 e h
    unfold add_resource at h
    repeat' split at h
    all_goals
      first
        | (injection h with h1 h2; exact h1.symm)
        | (injection h with h1 h2; exact Except.noConfusion h2)
  · intro st a q st2 e h
    unfold update_resource_quantity at h
    repeat' split at h
    all_goals
      first
        | (injection h with h1 h2; exact h1.symm)
        | (injection h with h1 h2; exact Except.noConfusion h2)
  · intro st a st2 e h
    unfold remove_resource at h
    repeat' split at h
    all_goals
      first
        | (injection h with h1 h2; exact h1.symm)
        | (injection h with h1 h2; exact Except.noConfusion h2)
  · intro st today a b bd st2 e h
    unfold borrow_resource at h
    repeat' split at h
    all_goals
      first
        | (injection h with h1 h2; exact h1.symm)
        | (injection h with h1 h2; exact Except.noConfusion h2)
  · intro st today a rd st2 e h
    exact return_resource_error_frame st today a rd st2 e h
  · intro st today a b rd st2 e h
    unfold return_resource_by_student_resource at h
    repeat' split at h
    all_goals
      first
        | (injection h with h1 h2; exact h1.symm)
        | (exact return_resource_error_frame _ _ _ _ _ _ h)

/-! ## Claim C2: the return contract -/

/-- Claim C2: `return_resource` raises NotFoundError when no transaction has
the id; ConflictError when the transaction is not in status "borrowed";
NotFoundError when the referenced resource no longer exists; otherwise, with a
return date `d` that parses (`defaultDate today return_date`: today when
omitted, stripped when given), it sets that transaction's return_date to `d`
and its status to "returned", increments the referenced resource's quantity by
exactly 1, returns the updated transaction record, and changes no other
transaction, resource, student or setting. -/
theorem return_resource_contract (st : State) (today tid : String)
    (rd : Option String) (hs : pyStrip tid = tid) (hne : tid ≠ "") :
    (findTransactionRec st.transactions tid = none →
      return_resource st today tid rd = (st, .error .notFound)) ∧
    (∀ tx, findTransactionRec st.transactions tid = some tx →
      tx.status ≠ "borrowed" →
      return_resource st today tid rd = (st, .error .conflict)) ∧
    (∀ tx, findTransactionRec st.transactions tid = some tx →
      tx.status = "borrowed" →
      pyStrip tx.resource_id = tx.resource_id → tx.resource_id ≠ "" →
      findResourceRec st.resources tx.resource_id = none →
      return_resource st today tid rd = (st, .error .notFound)) ∧
    (∀ tx r dt, findTransactionRec st.transactions tid = some tx →
      tx.status = "borrowed" →
      pyStrip tx.resource_id = tx.resource_id → tx.resource_id ≠ "" →
      findResourceRec st.resources tx.resource_id = some r →
      parse_iso (defaultDate today rd) = some dt →
      ∃ pre post pre2 post2,
        st.transactions = pre ++ tx :: post ∧
        (∀ x ∈ pre, x.transaction_id ≠ tid) ∧
        st.resources = pre2 ++ r :: post2 ∧
        (∀ x ∈ pre2, x.resource_id ≠ tx.resource_id) ∧
        return_resource st today tid rd =
          ({ st with
              transactions := (pre ++ { tx with
                return_date := some (defaultDate today rd),
                status := "returned" } :: post),
              resources := (pre2 ++ { r with
                quantity := r.quantity + 1 } :: post2) },
            .ok { tx with
              return_date := some (defaultDate today rd),
              status := "returned" })) := by
  have hrq := require_nonempty_of_stripped tid hs hne
  have hft := find_transaction_of_stripped st tid hs hne
  refine ⟨?_, ?_, ?_, ?_⟩
  · intro h
    simp [return_resource, hrq, hft, h]
  · intro tx h hstat
    simp [return_resource, hrq, hft, h, hstat]
  · intro tx h hstat hrs hrne hnone
    have hfr := find_resource_of_stripped st tx.resource_id hrs hrne
    simp [return_resource, hrq, hft, h, hstat, hfr, hnone]
  · intro tx r dt h hstat hrs hrne hsome hparse
    have hfr := find_resource_of_stripped st tx.resource_id hrs hrne
    have h' : st.transactions.find? (fun x => x.transaction_id == tid) = some tx := h
    obtain ⟨hid, pre, post, hl, hpre⟩ :=
      find?_key_eq_some (fun x => x.transaction_id) st.transactions tid tx h'
    have h2' : st.resources.find? (fun x => x.resource_id == tx.resource_id) =
        some r := hsome
    obtain ⟨hid2, pre2, post2, hl2, hpre2⟩ :=
      find?_key_eq_some (fun x => x.resource_id) st.resources tx.resource_id r h2'
    refine ⟨pre, post, pre2, post2, hl, hpre, hl2, hpre2, ?_⟩
    have hU1 : updateFirstTransaction st.transactions tid
        (fun t => { t with
          return_date := some (defaultDate today rd), status := "returned" }) =
        pre ++ { tx with
          return_date := some (defaultDate today rd), status := "returned" }
          :: post := by
      rw [hl]
      exact updateFirstTransaction_append pre tx post tid _ hpre hid
    have hU2 : updateFirstResource st.resources tx.resource_id
        (fun x => { x with quantity := x.quantity + 1 }) =
        pre2 ++ { r with quantity := r.quantity + 1 } :: post2 := by
      rw [hl2]
      exact updateFirstResource_append pre2 r post2 tx.resource_id _ hpre2 hid2
    simp only [return_resource, hrq, hft, h, hstat, hfr, hsome, hparse, hrs,
      hU1, hU2, ne_eq, not_true_eq_false, if_false]

/-- Witness for C2: returning transaction T001 of `exSt` on 2024-01-05
succeeds, marks it returned with that date, and bumps R2's quantity from 0 to
1 while touching nothing else. -/
theorem return_resource_contract_witness :
    ∃ pre post pre2 post2,
      exSt.transactions = pre ++ (⟨"T001", "S1", "R2", "2024-01-01",
        "2024-01-04", none, "borrowed"⟩ : Transaction) :: post ∧
      (∀ x ∈ pre, x.transaction_id ≠ "T001") ∧
      exSt.resources = pre2 ++ (⟨"R2", "Laptop", "IT", 0⟩ : Resource) :: post2 ∧
      (∀ x ∈ pre2, x.resource_id ≠
        (⟨"T001", "S1", "R2", "2024-01-01", "2024-01-04", none,
          "borrowed"⟩ : Transaction).resource_id) ∧
      return_resource exSt "2024-01-05" "T001" (some "2024-01-05") =
        ({ exSt with
            transactions := (pre ++ { (⟨"T001", "S1", "R2", "2024-01-01",
              "2024-01-04", none, "borrowed"⟩ : Transaction) with
              return_date := some (defaultDate "2024-01-05" (some "2024-01-05")),
              status := "returned" } :: post),
            resources := (pre2 ++ { (⟨"R2", "Laptop", "IT", 0⟩ : Resource) with
              quantity := (⟨"R2", "Laptop", "IT", 0⟩ : Resource).quantity + 1 }
              :: post2) },
          .ok { (⟨"T001", "S1", "R2", "2024-01-01", "2024-01-04", none,
            "borrowed"⟩ : Transaction) with
            return_date := some (defaultDate "2024-01-05" (some "2024-01-05")),
            status := "returned" }) := by
  exact (return_resource_contract exSt "2024-01-05" "T001" (some "2024-01-05")
    (by decide) (by decide)).2.2.2
    ⟨"T001", "S1", "R2", "2024-01-01", "2024-01-04", none, "borrowed"⟩
    ⟨"R2", "Laptop", "IT", 0⟩ ⟨2024, 1, 5⟩ rfl rfl (by decide) (by decide) rfl
    (by decide)

/-! ## Claim C1: the borrow contract -/

/-- Claim C1: given non-empty (stripped) ids, `borrow_resource` raises
NotFoundError when the student or the resource is absent; raises
ConflictError when the resource's quantity is ≤ 0, with no hypothesis on any
other state (in particular the check precedes the double-borrow check and the
date validation); and on success with a borrow date `d` that parses
(`defaultDate today borrow_date`: today when omitted) it appends exactly one
new transaction whose id is the freshly allocated `next_transaction_id`
(distinct from every existing id), carrying the student and resource ids,
`borrow_date = d`, `due_date = d` advanced by `due_days` days of calendar
arithmetic, `return_date = none` and status "borrowed"; it decrements exactly
that resource's quantity by 1, leaves every other record unchanged, and
returns the new transaction record. -/
theorem borrow_resource_contract (st : State) (today sid rid : String)
    (bdo : Option String)
    (hs1 : pyStrip sid = sid) (hne1 : sid ≠ "")
    (hs2 : pyStrip rid = rid) (hne2 : rid ≠ "") :
    (findStudentRec st.students sid = none →
      borrow_resource st today sid rid bdo = (st, .error .notFound)) ∧
    (∀ s, findStudentRec st.students sid = some s →
      findResourceRec st.resources rid = none →
      borrow_resource st today sid rid bdo = (st, .error .notFound)) ∧
    (∀ s r, findStudentRec st.students sid = some s →
      findResourceRec st.resources rid = some r → r.quantity ≤ 0 →
      borrow_resource st today sid rid bdo = (st, .error .conflict)) ∧
    (∀ s r bd, findStudentRec st.students sid = some s →
      findResourceRec st.resources rid = some r → 0 < r.quantity →
      (∀ t ∈ st.transactions,
        ¬(t.student_id = sid ∧ t.resource_id = rid ∧ t.status = "borrowed")) →
      parse_iso (defaultDate today bdo) = some bd →
      (∀ t ∈ st.transactions, t.transaction_id ≠
        (borrowTx st sid rid (defaultDate today bdo) bd).transaction_id) ∧
      borrowTx st sid rid (defaultDate today bdo) bd =
        { transaction_id := next_transaction_id st.transactions,
          student_id := sid, resource_id := rid,
          borrow_date := defaultDate today bdo,
          due_date := dateToIso (addDays bd st.due_days),
          return_date := none, status := "borrowed" } ∧
      ∃ pre post,
        st.resources = pre ++ r :: post ∧
        (∀ x ∈ pre, x.resource_id ≠ rid) ∧
        borrow_resource st today sid rid bdo =
          ({ st with
              resources := (pre ++ { r with quantity := r.quantity - 1 } :: post),
              transactions := (st.transactions ++
                [borrowTx st sid rid (defaultDate today bdo) bd]) },
            .ok (borrowTx st sid rid (defaultDate today bdo) bd))) := by
  have hrq1 := require_nonempty_of_stripped sid hs1 hne1
  have hrq2 := require_nonempty_of_stripped rid hs2 hne2
  have hfs := find_student_of_stripped st sid hs1 hne1
  have hfr := find_resource_of_stripped st rid hs2 hne2
  refine ⟨?_, ?_, ?_, ?_⟩
  · intro h
    simp [borrow_resource, hrq1, hrq2, hfs, h]
  · intro s hsome hnone
    simp [borrow_resource, hrq1, hrq2, hfs, hsome, hfr, hnone]
  · intro s r hsome hsomer hq
    simp [borrow_resource, hrq1, hrq2, hfs, hsome, hfr, hsomer, hq]
  · intro s r bd hsome hsomer hqpos hall hparse
    have hq : ¬(r.quantity ≤ 0) := by omega
    have hemp : (active_transactions_for_student_resource st sid rid).isEmpty
        = true := by
      rw [List.isEmpty_iff]
      unfold active_transactions_for_student_resource
      rw [List.filter_eq_nil_iff]
      intro t ht
      have h2 := hall t ht
      simp only [Bool.and_eq_true, beq_iff_eq]
      tauto
    have h2' : st.resources.find? (fun x => x.resource_id == rid) = some r :=
      hsomer
    obtain ⟨hid2, pre, post, hl, hpre⟩ :=
      find?_key_eq_some (fun x => x.resource_id) st.resources rid r h2'
    refine ⟨fun t ht => next_transaction_id_fresh st.transactions t ht, rfl,
      pre, post, hl, hpre, ?_⟩
    have hU : updateFirstResource st.resources rid
        (fun x => { x with quantity := x.quantity - 1 }) =
        pre ++ { r with quantity := r.quantity - 1 } :: post := by
      rw [hl]
      exact updateFirstResource_append pre r post rid _ hpre hid2
    simp only [borrow_resource, hrq1, hrq2, hfs, hsome, hfr, hsomer, hparse,
      hU, if_neg hq, hemp, Bool.true_eq_false, if_false]

/-- Witness for C1: on `exSt`, student S1 borrows R1 on 2024-01-30 with
due_days = 3: the new transaction is T002 (one past the existing T001), due
2024-02-02 (exact calendar arithmetic across the end of January), R1 drops
from quantity 2 to 1, and the transaction list grows by exactly that record. -/
theorem borrow_resource_contract_witness :
    (∀ t ∈ exSt.transactions, t.transaction_id ≠
      (borrowTx exSt "S1" "R1" (defaultDate "2024-01-30" (some "2024-01-30"))
        ⟨2024, 1, 30⟩).transaction_id) ∧
    borrowTx exSt "S1" "R1" (defaultDate "2024-01-30" (some "2024-01-30"))
        ⟨2024, 1, 30⟩ =
      { transaction_id := next_transaction_id exSt.transactions,
        student_id := "S1", resource_id := "R1",
        borrow_date := defaultDate "2024-01-30" (some "2024-01-30"),
        due_date := dateToIso (addDays ⟨2024, 1, 30⟩ exSt.due_days),
        return_date := none, status := "borrowed" } ∧
    ∃ pre post,
      exSt.resources = pre ++ (⟨"R1", "Projector", "AV", 2⟩ : Resource) :: post ∧
      (∀ x ∈ pre, x.resource_id ≠ "R1") ∧
      borrow_resource exSt "2024-01-30" "S1" "R1" (some "2024-01-30") =
        ({ exSt with
            resources := (pre ++ { (⟨"R1", "Projector", "AV", 2⟩ : Resource) with
              quantity := (⟨"R1", "Projector", "AV", 2⟩ : Resource).quantity - 1 }
              :: post),
            transactions := (exSt.transactions ++
              [borrowTx exSt "S1" "R1"
                (defaultDate "2024-01-30" (some "2024-01-30")) ⟨2024, 1, 30⟩]) },
          .ok (borrowTx exSt "S1" "R1"
            (defaultDate "2024-01-30" (some "2024-01-30")) ⟨2024, 1, 30⟩)) := by
  exact (borrow_resource_contract exSt "2024-01-30" "S1" "R1"
    (some "2024-01-30") (by decide) (by decide) (by decide) (by decide)).2.2.2
    ⟨"S1", "Alice", "alice@alustudent.com"⟩ ⟨"R1", "Projector", "AV", 2⟩
    ⟨2024, 1, 30⟩ rfl rfl (by decide) (by decide) (by decide)

/-! ## Claim C6: overdue detection -/

/-- The collection predicate of `list_overdue`: keep a transaction when
`is_overdue` returned true. -/
def overdueKeep (cdate : String) (t : Transaction) : Bool :=
  match is_overdue t cdate with
  | .ok b => b
  | .error _ => false

theorem listOverdueGo_ok (txs : List Transaction) (cdate : String)
    (hc : parse_iso cdate ≠ none)
    (h : ∀ t ∈ txs, t.status = "borrowed" → parse_iso t.due_date ≠ none) :
    listOverdueGo txs cdate = .ok (txs.filter (overdueKeep cdate)) := by
  induction txs with
  | nil => rfl
  | cons t ts ih =>
    have hts : ∀ x ∈ ts, x.status = "borrowed" → parse_iso x.due_date ≠ none :=
      fun x hx => h x (List.mem_cons_of_mem t hx)
    have hok : ∃ b, is_overdue t cdate = .ok b := by
      unfold is_overdue
      split
      · exact ⟨false, rfl⟩
      next hst =>
        have hst2 : t.status = "borrowed" := not_not.mp hst
        have hd := h t (List.mem_cons_self t ts) hst2
        cases hdd : parse_iso t.due_date with
        | none => exact absurd hdd hd
        | some due =>
          cases hcc : parse_iso cdate with
          | none => exact absurd hcc hc
          | some cur => exact ⟨Date.ltb due cur, rfl⟩
    obtain ⟨b, hb⟩ := hok
    unfold listOverdueGo
    rw [hb, ih hts]
    cases b
    · simp [List.filter_cons, overdueKeep, hb]
    · simp [List.filter_cons, overdueKeep, hb]

/-- Claim C6: `is_overdue` is false for any transaction whose status is not
"borrowed" (no date is even parsed); for a "borrowed" transaction with both
dates parsing it is true exactly when the reference date is strictly after the
due date — equal dates are not overdue; and `list_overdue` returns exactly the
transactions for which `is_overdue` is true, in stored order. -/
theorem overdue_contract :
    (∀ tx d, tx.status ≠ "borrowed" → is_overdue tx d = .ok false) ∧
    (∀ tx d due cur, tx.status = "borrowed" →
      parse_iso tx.due_date = some due → parse_iso d = some cur →
      is_overdue tx d = .ok (Date.ltb due cur)) ∧
    (∀ due, Date.ltb due due = false) ∧
    (∀ st today cdo, parse_iso (defaultDate today cdo) ≠ none →
      (∀ t ∈ st.transactions, t.status = "borrowed" →
        parse_iso t.due_date ≠ none) →
      list_overdue st today cdo =
        .ok (st.transactions.filter (overdueKeep (defaultDate today cdo)))) ∧
    (∀ cdate t b, is_overdue t cdate = .ok b → overdueKeep cdate t = b) := by
  refine ⟨?_, ?_, ?_, ?_, ?_⟩
  · intro tx d h
    unfold is_overdue
    rw [if_pos h]
  · intro tx d due cur h hdue hcur
    unfold is_overdue
    rw [if_neg (not_not_intro h), hdue, hcur]
  · intro due
    simp [Date.ltb]
  · intro st today cdo hc hall
    unfold list_overdue
    cases hp : parse_iso (defaultDate today cdo) with
    | none => exact absurd hp hc
    | some dt =>
      exact listOverdueGo_ok st.transactions (defaultDate today cdo) hc hall
  · intro cdate t b hb
    unfold overdueKeep
    rw [hb]

/-! ## Claim C3: at most one open borrow per (student, resource) pair -/

/-- The invariant: no two positions of the transaction list hold transactions
that are both "borrowed" for the same (student_id, resource_id) pair. -/
def PairInv (st : State) : Prop :=
  st.transactions.Pairwise (fun a b =>
    ¬(a.status = "borrowed" ∧ b.status = "borrowed" ∧
      a.student_id = b.student_id ∧ a.resource_id = b.resource_id))

/-- One manager call with arbitrary arguments: `st` steps to the state the
call returns (on error that is `st` itself, by C10). -/
inductive Step : State → State → Prop where
  | stepAddStudent (st : State) (a b c : String) :
      Step st (add_student st a b c).1
  | stepAddResource (st : State) (a b c : String) (q : Option Int) :
      Step st (add_resource st a b c q).1
  | stepUpdateQuantity (st : State) (a : String) (q : Option Int) :
      Step st (update_resource_quantity st a q).1
  | stepRemoveResource (st : State) (a : String) :
      Step st (remove_resource st a).1
  | stepBorrow (st : State) (today a b : String) (bd : Option String) :
      Step st (borrow_resource st today a b bd).1
  | stepReturn (st : State) (today a : String) (rd : Option String) :
      Step st (return_resource st today a rd).1
  | stepReturnByPair (st : State) (today a b : String) (rd : Option String) :
      Step st (return_resource_by_student_resource st today a b rd).1

/-- Zero or more manager calls. -/
inductive Reachable : State → State → Prop where
  | refl (st : State) : Reachable st st
  | step (st1 st2 st3 : State) :
      Reachable st1 st2 → Step st2 st3 → Reachable st1 st3

theorem add_student_transactions_eq (st : State) (a b c : String) :
    (add_student st a b c).1.transactions = st.transactions := by
  unfold add_student
  repeat' split
  all_goals rfl

theorem add_resource_transactions_eq (st : State) (a b c : String)
    (q : Option Int) : (add_resource st a b c q).1.transactions =
      st.transactions := by
  unfold add_resource
  repeat' split
  all_goals rfl

theorem update_resource_quantity_transactions_eq (st : State) (a : String)
    (q : Option Int) : (update_resource_quantity st a q).1.transactions =
      st.transactions := by
  unfold update_resource_quantity
  repeat' split
  all_goals rfl

theorem remove_resource_transactions_eq (st : State) (a : String) :
    (remove_resource st a).1.transactions = st.transactions := by
  unfold remove_resource
  repeat' split
  all_goals rfl

theorem mem_updateFirstTransaction (l : List Transaction) (tid : String)
    (f : Transaction → Transaction) (x : Transaction)
    (hx : x ∈ updateFirstTransaction l tid f) : x ∈ l ∨ ∃ y ∈ l, x = f y := by
  induction l with
  | nil =>
    unfold updateFirstTransaction at hx
    simp at hx
  | cons t ts ih =>
    unfold updateFirstTransaction at hx
    split at hx
    · rcases List.mem_cons.mp hx with rfl | hx2
      · exact Or.inr ⟨t, by simp, rfl⟩
      · exact Or.inl (by simp [hx2])
    · rcases List.mem_cons.mp hx with rfl | hx2
      · exact Or.inl (by simp)
      · rcases ih hx2 with h1 | ⟨y, hy, rfl⟩
        · exact Or.inl (by simp [h1])
        · exact Or.inr ⟨y, by simp [hy], rfl⟩

theorem pairwise_updateFirstTransaction {R : Transaction → Transaction → Prop}
    (l : List Transaction) (tid : String) (f : Transaction → Transaction)
    (h : l.Pairwise R)
    (hfr : ∀ x t, R x (f t)) (hfl : ∀ x t, R (f t) x) :
    (updateFirstTransaction l tid f).Pairwise R := by
  induction l with
  | nil => exact List.Pairwise.nil
  | cons t ts ih =>
    rw [List.pairwise_cons] at h
    unfold updateFirstTransaction
    split
    · rw [List.pairwise_cons]
      exact ⟨fun x _ => hfl x t, h.2⟩
    · rw [List.pairwise_cons]
      refine ⟨?_, ih h.2⟩
      intro x hx
      rcases mem_updateFirstTransaction ts tid f x hx with h1 | ⟨y, hy, rfl⟩
      · exact h.1 x h1
      · exact hfr t y

theorem borrow_resource_preserves_pairinv (st : State) (today a b : String)
    (bd : Option String) (h : PairInv st) :
    PairInv (borrow_resource st today a b bd).1 := by
  unfold borrow_resource
  split
  · exact h
  next sid heq1 =>
  split
  · exact h
  next rid heq2 =>
  split
  · exact h
  · exact h
  next s heqs =>
  split
  · exact h
  · exact h
  next r heqr =>
  split
  · exact h
  next hq =>
  split
  · exact h
  next hact =>
  split
  · exact h
  next bd2 heqp =>
  have hemp : active_transactions_for_student_resource st sid rid = [] := by
    rcases he : active_transactions_for_student_resource st sid rid with _ | ⟨x, xs⟩
    · rfl
    · rw [he] at hact
      simp at hact
  have hnone : ∀ t ∈ st.transactions,
      ¬(t.student_id = sid ∧ t.resource_id = rid ∧ t.status = "borrowed") := by
    intro t ht hcon
    have hmem : t ∈ active_transactions_for_student_resource st sid rid :=
      List.mem_filter.mpr ⟨ht, by simp [hcon.1, hcon.2.1, hcon.2.2]⟩
    rw [hemp] at hmem
    cases hmem
  change List.Pairwise _ (st.transactions ++
    [borrowTx st sid rid (defaultDate today bd) bd2])
  rw [List.pairwise_append]
  refine ⟨h, List.pairwise_singleton _ _, ?_⟩
  intro x hx y hy
  simp only [List.mem_singleton] at hy
  subst hy
  intro hcon
  exact hnone x hx ⟨hcon.2.2.1, hcon.2.2.2, hcon.1⟩

theorem return_resource_preserves_pairinv (st : State) (today a : String)
    (rd : Option String) (h : PairInv st) :
    PairInv (return_resource st today a rd).1 := by
  unfold return_resource
  split
  · exact h
  next tid heq1 =>
  split
  · exact h
  · exact h
  next tx heqt =>
  split
  · exact h
  split
  · exact h
  · exact h
  next r heqr =>
  split
  · exact h
  next dt heqp =>
  change List.Pairwise _ (updateFirstTransaction st.transactions tid
    (fun t => { t with
      return_date := some (defaultDate today rd), status := "returned" }))
  refine pairwise_updateFirstTransaction st.transactions tid _ h ?_ ?_
  · intro x t hcon
    simp at hcon
  · intro x t hcon
    simp at hcon

theorem return_by_pair_preserves_pairinv (st : State) (today a b : String)
    (rd : Option String) (h : PairInv st) :
    PairInv (return_resource_by_student_resource st today a b rd).1 := by
  unfold return_resource_by_student_resource
  split
  · exact h
  next sid heq1 =>
  split
  · exact h
  next rid heq2 =>
  split
  · exact h
  · exact return_resource_preserves_pairinv st today _ rd h
  · exact h

theorem step_preserves_pairinv (s1 s2 : State) (h : PairInv s1)
    (hs : Step s1 s2) : PairInv s2 := by
  cases hs with
  | stepAddStudent a b c =>
    unfold PairInv
    rw [add_student_transactions_eq]
    exact h
  | stepAddResource a b c q =>
    unfold PairInv
    rw [add_resource_transactions_eq]
    exact h
  | stepUpdateQuantity a q =>
    unfold PairInv
    rw [update_resource_quantity_transactions_eq]
    exact h
  | stepRemoveResource a =>
    unfold PairInv
    rw [remove_resource_transactions_eq]
    exact h
  | stepBorrow today a b bd =>
    exact borrow_resource_preserves_pairinv s1 today a b bd h
  | stepReturn today a rd =>
    exact return_resource_preserves_pairinv s1 today a rd h
  | stepReturnByPair today a b rd =>
    exact return_by_pair_preserves_pairinv s1 today a b rd h

/-- Claim C3: the at-most-one-open-borrow-per-pair invariant is preserved by
every sequence of manager operations from any state satisfying it; and
whenever the pair already has a "borrowed" transaction (ids non-empty,
student and resource present), `borrow_resource` raises ConflictError — via
the dedicated double-borrow check, or via the quantity check, both of which
raise ConflictError. -/
theorem pair_invariant_contract :
    (∀ s1 s2, PairInv s1 → Reachable s1 s2 → PairInv s2) ∧
    (∀ st today sid rid bdo,
      pyStrip sid = sid → sid ≠ "" → pyStrip rid = rid → rid ≠ "" →
      findStudentRec st.students sid ≠ none →
      findResourceRec st.resources rid ≠ none →
      (∃ t ∈ st.transactions,
        t.student_id = sid ∧ t.resource_id = rid ∧ t.status = "borrowed") →
      (borrow_resource st today sid rid bdo).2 = .error .conflict) := by
  constructor
  · intro s1 s2 h hr
    induction hr with
    | refl => exact h
    | step st2 st3 hreach hstep ih =>
      exact step_preserves_pairinv st2 st3 ih hstep
  · intro st today sid rid bdo hs1 hne1 hs2 hne2 hstu hres hex
    have hrq1 := require_nonempty_of_stripped sid hs1 hne1
    have hrq2 := require_nonempty_of_stripped rid hs2 hne2
    have hfs := find_student_of_stripped st sid hs1 hne1
    have hfr := find_resource_of_stripped st rid hs2 hne2
    cases hsome_s : findStudentRec st.students sid with
    | none => exact absurd hsome_s hstu
    | some s =>
    cases hsome_r : findResourceRec st.resources rid with
    | none => exact absurd hsome_r hres
    | some r =>
    have hne3 : (active_transactions_for_student_resource st sid rid).isEmpty
        = false := by
      obtain ⟨t, ht, h1, h2, h3⟩ := hex
      have hmem : t ∈ active_transactions_for_student_resource st sid rid :=
        List.mem_filter.mpr ⟨ht, by simp [h1, h2, h3]⟩
      cases he : active_transactions_for_student_resource st sid rid with
      | nil => rw [he] at hmem; cases hmem
      | cons x xs => rfl
    by_cases hq : r.quantity ≤ 0
    · simp [borrow_resource, hrq1, hrq2, hfs, hsome_s, hfr, hsome_r, hq]
    · simp [borrow_resource, hrq1, hrq2, hfs, hsome_s, hfr, hsome_r, hq, hne3]

/-! ## Claim C5: copies versus aliases

The value-level model above cannot distinguish a returned copy from a
returned alias, so the copy discipline of the lookup/list operations is
modelled here with explicit object identity: records live in a heap (a list
indexed by address), a collection is a list of addresses, returning a record
means returning its address, and `dict(r)` (lines 271, 278, 384, 390, 412)
allocates a fresh address holding an equal record.  The find helpers
(lines 157-176) execute `return s` — they return the stored record object
itself, i.e. its existing address.  `writeAt` models the caller mutating a
returned record in place; `viewOf` is what the manager sees in its
collection. -/

structure AliasState (α : Type) where
  heap : List α
  idx : List Nat
deriving Repr, DecidableEq

/-- The records of the manager's collection, read through the heap. -/
def viewOf {α : Type} (st : AliasState α) : List (Option α) :=
  st.idx.map (fun a => st.heap[a]?)

/-- A caller mutates the record object at address `a` in place. -/
def writeAt {α : Type} (st : AliasState α) (a : Nat) (r : α) : AliasState α :=
  { st with heap := st.heap.set a r }

/-- The find helpers (`find_student` / `find_resource` / `find_transaction`,
lines 157-176): scan the collection in order and return the first matching
record object itself (`return s` — no copy). -/
def findAddr {α : Type} (st : AliasState α) (p : α → Bool) : Option Nat :=
  st.idx.find? (fun a =>
    match st.heap[a]? with
    | some r => p r
    | none => false)

/-- The list operations (`list_resources`, `list_available_resources`,
`list_transactions`, `list_overdue`): scan the addresses `l` and for each
kept record append a copy (`result.append(dict(r))`) to the heap, returning
the fresh addresses. -/
def listWhere {α : Type} (st : AliasState α) (l : List Nat) (p : α → Bool) :
    AliasState α × List Nat :=
  match l with
  | [] => (st, [])
  | a :: as =>
    match st.heap[a]? with
    | none => listWhere st as p
    | some r =>
      if p r then
        ((listWhere { st with heap := st.heap ++ [r] } as p).1,
          st.heap.length :: (listWhere { st with heap := st.heap ++ [r] } as p).2)
      else listWhere st as p

theorem listWhere_spec {α : Type} (p : α → Bool) :
    ∀ (l : List Nat) (st : AliasState α),
      (listWhere st l p).1.idx = st.idx ∧
      (∃ ext, (listWhere st l p).1.heap = st.heap ++ ext) ∧
      (∀ a ∈ (listWhere st l p).2, st.heap.length ≤ a) := by
  intro l
  induction l with
  | nil =>
    intro st
    exact ⟨rfl, ⟨[], by simp [listWhere]⟩, by intro a ha; simp [listWhere] at ha⟩
  | cons a as ih =>
    intro st
    unfold listWhere
    split
    · exact ih st
    next r heq =>
      split
      next hp =>
        obtain ⟨h1, ⟨ext, h2⟩, h3⟩ := ih { st with heap := st.heap ++ [r] }
        refine ⟨h1, ⟨[r] ++ ext, by rw [h2]; simp⟩, ?_⟩
        intro x hx
        rcases List.mem_cons.mp hx with rfl | hx2
        · exact le_rfl
        · have hx3 := h3 x hx2
          simp only [List.length_append, List.length_singleton] at hx3
          omega
      next hp => exact ih st

/-- Claim C5 (amended): in the identity-tracking model, the list operations
return only fresh addresses — the manager's view is unchanged by the call and
by any in-place mutation of a returned record — whereas the find-by-id
helpers return an address of the manager's own collection (an alias). -/
theorem copy_discipline_amended {α : Type} (st : AliasState α)
    (hwf : ∀ a ∈ st.idx, a < st.heap.length) :
    (∀ p a, findAddr st p = some a → a ∈ st.idx) ∧
    (∀ p, viewOf (listWhere st st.idx p).1 = viewOf st) ∧
    (∀ p a, a ∈ (listWhere st st.idx p).2 →
      ∀ r, viewOf (writeAt (listWhere st st.idx p).1 a r) = viewOf st) := by
  refine ⟨?_, ?_, ?_⟩
  · intro p a h
    exact List.mem_of_find?_eq_some h
  · intro p
    obtain ⟨h1, ⟨ext, h2⟩, h3⟩ := listWhere_spec p st.idx st
    unfold viewOf
    rw [h1, h2]
    apply List.map_congr_left
    intro i hi
    exact List.getElem?_append_left (hwf i hi)
  · intro p a ha r
    obtain ⟨h1, ⟨ext, h2⟩, h3⟩ := listWhere_spec p st.idx st
    have hge := h3 a ha
    unfold viewOf writeAt
    rw [h1]
    apply List.map_congr_left
    intro i hi
    have hi2 : i < st.heap.length := hwf i hi
    have hne : a ≠ i := by omega
    rw [List.getElem?_set_ne hne, h2]
    exact List.getElem?_append_left hi2

/-- A one-record aliasing state over the resource collection. -/
def exAlias : AliasState Resource :=
  { heap := [⟨"R1", "Projector", "AV", 2⟩], idx := [0] }

/-- C5 counterexample: the claim says every lookup returns a defensive copy,
but `find_resource` returns the stored record object itself: in `exAlias`,
`findAddr` yields address 0 — an address of the manager's own collection —
and writing through it changes what the manager's collection holds.  (In the
code, `borrow_resource` even relies on this aliasing when it mutates the
record returned by `find_resource`.) -/
theorem find_returns_alias_counterexample :
    findAddr exAlias (fun r => r.resource_id == "R1") = some 0 ∧
      (0 : Nat) ∈ exAlias.idx ∧
      viewOf (writeAt exAlias 0 ⟨"R1", "Projector", "AV", 99⟩) ≠ viewOf exAlias := by
  decide

/-- Witness for C5 (amended): the fresh-copy and alias facts instantiated on
the concrete one-record state. -/
theorem copy_discipline_amended_witness :
    (∀ p a, findAddr exAlias p = some a → a ∈ exAlias.idx) ∧
    (∀ p, viewOf (listWhere exAlias exAlias.idx p).1 = viewOf exAlias) ∧
    (∀ p a, a ∈ (listWhere exAlias exAlias.idx p).2 →
      ∀ r, viewOf (writeAt (listWhere exAlias exAlias.idx p).1 a r) =
        viewOf exAlias) := by
  exact copy_discipline_amended exAlias (by decide)

/-- The spec's calendar-arithmetic example: 2024-01-30 plus 3 days is
2024-02-02. -/
theorem due_date_calendar_example :
    iso_plus_days "2024-01-30" 3 = some "2024-02-02" := by decide

end CampusBorrow
